import Mathlib

/-!
Verification development for the gophercloud provider client
(src/provider_client.go): a shallow embedding of the authenticated-request
execution engine — the token store, the reauthentication coordinator, the
retry/backoff machinery of doRequest, and the header construction — together
with theorems about the behaviour the design document ascribes to them.

Modelling conventions:
  * Go errors are an inductive type mirroring the error values that
    provider_client.go constructs; error structs defined elsewhere in the
    repository are represented by constructors carrying exactly the fields
    that provider_client.go populates.
  * The user-supplied hooks (ReauthFunc, RetryBackoffFunc, RetryFunc, the
    transport, the JSON decoder) are oracles: functions from the invocation
    index to the scripted outcome.
  * The unbounded recursion of doRequest is made total with a fuel
    parameter; running out of fuel yields a model-only outcome.
  * Mutex-protected regions of the reauthentication coordinator are modelled
    as atomic events of a small transition system (the lock serialises them
    in the source).
-/

namespace Gophercloud

/-- Go error values produced by the request engine. Constructors carry the
fields that provider_client.go populates when it builds the value:
unableToReauthenticate has fields ErrOriginal and ErrReauth (lines 466-469),
errorAfterReauthentication has the single field ErrOriginal that doRequest
assigns (lines 483-489). custom stands for unspecified errors returned by
user-supplied hooks; outOfFuel is the model artifact for exhausted fuel. -/
inductive GoError where
  | jsonAndRawBody
  | keepResponseBody
  | unexpectedResponseCode (method url : String) (expected : List Nat) (actual : Nat)
  | unableToReauthenticate (errOriginal errReauth : GoError)
  | errorAfterReauthentication (errOriginal : GoError)
  | transportError (tag : Nat)
  | custom (tag : Nat)
  | outOfFuel
deriving DecidableEq, Repr

/-- Whether the error x occurs anywhere in the unwrap chain of e: e itself,
or inside the fields of the two composite error constructors. -/
def GoError.occursIn (x : GoError) : GoError → Bool
  | .unableToReauthenticate a b =>
      x = .unableToReauthenticate a b || GoError.occursIn x a || GoError.occursIn x b
  | .errorAfterReauthentication a =>
      x = .errorAfterReauthentication a || GoError.occursIn x a
  | e => x = e

/-- An HTTP header collection, newest binding first. Go's http.Header maps a
name to values; Set replaces all values of the name and Del removes them. -/
abbrev Header := List (String × String)

/-- Header.Del: remove every binding of the name. -/
def Header.hdel : Header → String → Header
  | [], _ => []
  | p :: t, k => if p.1 = k then Header.hdel t k else p :: Header.hdel t k

/-- Header.Set: replace every binding of the name with the one new value. -/
def Header.hset (h : Header) (k v : String) : Header :=
  (k, v) :: h.hdel k

/-- Header.Get: the current value of the name, if any. -/
def Header.hget : Header → String → Option String
  | [], _ => none
  | p :: t, k => if p.1 = k then some p.2 else Header.hget t k

theorem Header.hget_hdel_self (h : Header) (k : String) :
    (h.hdel k).hget k = none := by
  induction h with
  | nil => rfl
  | cons p t ih =>
      by_cases hp : p.1 = k
      · simp [Header.hdel, hp, ih]
      · simp [Header.hdel, Header.hget, hp, ih]

theorem Header.hget_hdel_ne (h : Header) (k k2 : String) (hne : k2 ≠ k) :
    (h.hdel k).hget k2 = h.hget k2 := by
  induction h with
  | nil => rfl
  | cons p t ih =>
      by_cases hp : p.1 = k
      · have hp2 : ¬ (p.1 = k2) := fun hc => hne (hc ▸ hp)
        have hk : ¬ (k = k2) := fun hc => hp2 (hp.trans hc)
        simp [Header.hdel, Header.hget, hp, hp2, hk, ih]
      · by_cases hp2 : p.1 = k2
        · simp [Header.hdel, Header.hget, hp, hp2, hne]
        · simp [Header.hdel, Header.hget, hp, hp2, ih]

theorem Header.hget_hdel (h : Header) (k k2 : String) :
    (h.hdel k).hget k2 = if k2 = k then none else h.hget k2 := by
  by_cases hc : k2 = k
  · subst hc
    simp [Header.hget_hdel_self]
  · simp [hc, Header.hget_hdel_ne h k k2 hc]

theorem Header.hget_hset_self (h : Header) (k v : String) :
    (h.hset k v).hget k = some v := by
  simp [Header.hset, Header.hget]

theorem Header.hget_hset_ne (h : Header) (k v k2 : String) (hne : k2 ≠ k) :
    (h.hset k v).hget k2 = h.hget k2 := by
  have hk : ¬ (k = k2) := fun hc => hne hc.symm
  simp [Header.hset, Header.hget, hk, Header.hget_hdel_ne h k k2 hne]

/-- Result of AuthResult.ExtractTokenID: the token identifier, or an error. -/
structure AuthResult where
  extractTokenID : Except GoError String

/-- The default User-Agent string (provider_client.go line 16). -/
def DefaultUserAgent : String := "vnpaycloud-console-gophercloud/v2.0.0"

/-- DefaultMaxBackoffRetries (provider_client.go line 17). -/
def DefaultMaxBackoffRetries : Nat := 60

/-- UserAgent.Join: the prepended strings followed by the default, joined
with blanks (provider_client.go lines 43-46). -/
def UserAgent.Join (prepend : List String) : String :=
  String.intercalate " " (prepend ++ [DefaultUserAgent])

/-- The ProviderClient fields that the request engine consults. User-supplied
functions are modelled by presence flags (has...Func); their scripted results
live in Env. The mutexes themselves are not data; the coordinator they guard
is modelled by the transition system further below. -/
structure ProviderClient where
  tokenID : String
  authResult : Option AuthResult
  throwaway : Bool
  hasReauthFunc : Bool
  hasRetryBackoffFunc : Bool
  maxBackoffRetries : Nat
  hasRetryFunc : Bool
  userAgentPrepend : List String

/-- SetTokenAndAuthResult (provider_client.go lines 211-228): extract the
token identifier from the result; on extraction failure return that error
with the client untouched, otherwise replace the token and the cached
result together. The returned pair is (the Go error value, the client
after the call). -/
def ProviderClient.SetTokenAndAuthResult (client : ProviderClient)
    (r : Option AuthResult) : Option GoError × ProviderClient :=
  match r with
  | none => (none, { client with tokenID := "", authResult := none })
  | some r0 =>
      match r0.extractTokenID with
      | .error e => (some e, client)
      | .ok tid => (none, { client with tokenID := tid, authResult := some r0 })

/-- The header map AuthenticatedHeaders returns (provider_client.go lines
144-162): empty for a throwaway client or an empty token, else the
X-Auth-Token binding. The wait on an in-flight reauthentication is modelled
separately by reauthFutureGet. -/
def ProviderClient.AuthenticatedHeadersMap (client : ProviderClient) :
    List (String × String) :=
  if client.throwaway then []
  else if client.tokenID = "" then []
  else [("X-Auth-Token", client.tokenID)]

/-- RequestOpts (provider_client.go lines 310-333). JSONBody is an abstract
payload tag (its marshalling is not consulted by any property here); RawBody
is the stream model defined next; hasJSONResponse says whether a decode
target was supplied. OkCodes distinguishes nil from a supplied list. -/
structure RawStream where
  length : Nat
  pos : Nat
  seekable : Bool
  seekErr : Option GoError
deriving DecidableEq, Repr

structure RequestOpts where
  JSONBody : Option Nat := none
  RawBody : Option RawStream := none
  hasJSONResponse : Bool := false
  OkCodes : Option (List Nat) := none
  MoreHeaders : List (String × String) := []
  OmitHeaders : List String := []
  KeepResponseBody : Bool := false
deriving DecidableEq

/-- The header population step of doRequest (provider_client.go lines
390-414), in source order: Content-Type when a JSON body was marshalled,
Accept, User-Agent, then MoreHeaders, then the OmitHeaders deletions, and
last the AuthenticatedHeaders bindings. -/
def buildRequestHeaders (client : ProviderClient) (opts : RequestOpts) : Header :=
  let h : Header := []
  let h := if opts.JSONBody.isSome then h.hset "Content-Type" "application/json" else h
  let h := h.hset "Accept" "application/json"
  let h := h.hset "User-Agent" (UserAgent.Join client.userAgentPrepend)
  let h := opts.MoreHeaders.foldl (fun acc p => acc.hset p.1 p.2) h
  let h := opts.OmitHeaders.foldl (fun acc k => acc.hdel k) h
  (client.AuthenticatedHeadersMap).foldl (fun acc p => acc.hset p.1 p.2) h

theorem hget_foldl_hdel (l : List String) (h : Header) (n : String) :
    (l.foldl (fun acc k => Header.hdel acc k) h).hget n =
      if n ∈ l then none else h.hget n := by
  induction l generalizing h with
  | nil => simp
  | cons k t ih =>
      by_cases hk : n = k
      · subst hk
        simp [List.foldl, ih, Header.hget_hdel_self]
      · by_cases hm : n ∈ t
        · simp [List.foldl, ih, hm, hk]
        · simp [List.foldl, ih, hm, hk, Header.hget_hdel_ne h k n hk]

/-- Outcome of one transport call (client.HTTPClient.Do): either a transport
error before any status was obtained, or a response with a status code. -/
inductive TransportResult where
  | transportErr (tag : Nat)
  | status (code : Nat)
deriving DecidableEq, Repr

/-- The scripted environment: the nth transport outcome, and the results the
user-supplied hooks return on their nth invocation (none = nil error). The
decode oracle gives the result of parsing the body of the nth response. -/
structure Env where
  transport : Nat → TransportResult
  reauth : Nat → Option GoError
  backoff : Nat → Option GoError
  retryFunc : Nat → Option GoError
  jsonDecode : Nat → Option GoError

/-- The mutable facts of one logical call: the requestState fields (retries,
hasReauthenticated, provider_client.go lines 336-344), the current position
of the RawBody stream (the reader is shared across retries), the invocation
counters that index the oracles, and for each transport call the position of
the RawBody at the instant it was sent (none when no RawBody). -/
structure DState where
  retries : Nat
  hasReauthenticated : Bool
  rawBody : Option RawStream
  nTransport : Nat
  nReauth : Nat
  nBackoff : Nat
  nRetryFunc : Nat
  sendLog : List (Option Nat)
deriving DecidableEq, Repr

/-- One transport dispatch: log the RawBody position being sent and mark the
stream as fully consumed (an http request reads its body reader to EOF). -/
def sendOnce (st : DState) : DState :=
  { st with
    nTransport := st.nTransport + 1
    sendLog := st.sendLog ++ [st.rawBody.map (fun s => s.pos)]
    rawBody := st.rawBody.map (fun s => { s with pos := s.length }) }

/-- State change of one RetryFunc invocation (retries is the shared counter,
provider_client.go lines 423, 503, 520, 544). -/
def bumpRetryFunc (st : DState) : DState :=
  { st with retries := st.retries + 1, nRetryFunc := st.nRetryFunc + 1 }

/-- State change of one RetryBackoffFunc invocation. -/
def bumpBackoff (st : DState) : DState :=
  { st with retries := st.retries + 1, nBackoff := st.nBackoff + 1 }

/-- State change of one Reauthenticate invocation. -/
def bumpReauth (st : DState) : DState :=
  { st with nReauth := st.nReauth + 1 }

/-- Set the per-call hasReauthenticated flag (provider_client.go line 478). -/
def markReauthed (st : DState) : DState :=
  { st with hasReauthenticated := true }

/-- The rewind step after a successful 401 reauthentication
(provider_client.go lines 471-477), acting on the RawBody reader: nothing
happens when no RawBody was supplied or the reader does not implement
io.Seeker; for a seekable reader a Seek error is returned, otherwise the
position is rewound to the start. The per-call state carries the reader, so
its presence coincides with the options.RawBody nil check of the source. -/
def seekCheck : Option RawStream → Option GoError × Option RawStream
  | none => (none, none)
  | some s =>
      if s.seekable then
        match s.seekErr with
        | some e => (some e, some s)
        | none => (none, some { s with pos := 0 })
      else (none, some s)

/-- defaultOkCodes (provider_client.go lines 568-583). -/
def defaultOkCodes (method : String) : List Nat :=
  if method = "GET" then [200]
  else if method = "HEAD" then [200]
  else if method = "POST" then [201, 202]
  else if method = "PUT" then [201, 202]
  else if method = "PATCH" then [200, 202, 204]
  else if method = "DELETE" then [202, 204]
  else []

/-- The rate-limit retry ceiling (provider_client.go lines 495-498):
MaxBackoffRetries, or DefaultMaxBackoffRetries when it is unset (zero). -/
def effectiveMaxBackoffRetries (client : ProviderClient) : Nat :=
  if client.maxBackoffRetries = 0 then DefaultMaxBackoffRetries
  else client.maxBackoffRetries

/-- Result of one doRequest call: the response status, or the Go error. -/
inductive ReqResult where
  | ok (status : Nat)
  | err (e : GoError)
deriving DecidableEq, Repr

/-- doRequest (provider_client.go lines 356-566), with fuel making the
unbounded retry recursion total. Branch order follows the source: the two
configuration errors, the transport dispatch (with the RetryFunc path on a
transport error), the ok-code test, then for an unexpected status the 401
single-reauthentication branch, the 429/498 backoff branch, and the common
RetryFunc fallback; an accepted response with a decode target consults the
decode oracle, whose failure also takes the RetryFunc path. -/
def doRequest (env : Env) (client : ProviderClient) (method url : String)
    (opts : RequestOpts) : Nat → DState → ReqResult × DState
  | 0, st => (.err .outOfFuel, st)
  | fuel + 1, st =>
    if opts.JSONBody.isSome ∧ opts.RawBody.isSome then
      (.err .jsonAndRawBody, st)
    else if opts.KeepResponseBody = true ∧ opts.hasJSONResponse = true then
      (.err .keepResponseBody, st)
    else
      let st1 := sendOnce st
      match env.transport st.nTransport with
      | .transportErr tag =>
          if client.hasRetryFunc = true then
            match env.retryFunc st1.nRetryFunc with
            | some e => (.err e, bumpRetryFunc st1)
            | none => doRequest env client method url opts fuel (bumpRetryFunc st1)
          else (.err (.transportError tag), st1)
      | .status code =>
          let okc := opts.OkCodes.getD (defaultOkCodes method)
          if code ∈ okc then
            if opts.hasJSONResponse = true ∧ code ≠ 204 then
              match env.jsonDecode st.nTransport with
              | some de =>
                  if client.hasRetryFunc = true then
                    match env.retryFunc st1.nRetryFunc with
                    | some e => (.err e, bumpRetryFunc st1)
                    | none => doRequest env client method url opts fuel (bumpRetryFunc st1)
                  else (.err de, st1)
              | none => (.ok code, st1)
            else (.ok code, st1)
          else
            let respErr := GoError.unexpectedResponseCode method url okc code
            if code = 401 ∧ client.hasReauthFunc = true ∧ st1.hasReauthenticated = false then
              match env.reauth st1.nReauth with
              | some e => (.err (.unableToReauthenticate respErr e), bumpReauth st1)
              | none =>
                  match seekCheck (bumpReauth st1).rawBody with
                  | (some e, _) => (.err e, bumpReauth st1)
                  | (none, rb) =>
                      match doRequest env client method url opts fuel
                          (markReauthed { bumpReauth st1 with rawBody := rb }) with
                      | (.ok c, st5) => (.ok c, st5)
                      | (.err e, st5) => (.err (.errorAfterReauthentication e), st5)
            else if (code = 429 ∨ code = 498) ∧ client.hasRetryBackoffFunc = true
                ∧ st1.retries < effectiveMaxBackoffRetries client then
              match env.backoff st1.nBackoff with
              | some e => (.err e, bumpBackoff st1)
              | none => doRequest env client method url opts fuel (bumpBackoff st1)
            else if client.hasRetryFunc = true then
              match env.retryFunc st1.nRetryFunc with
              | some e => (.err e, bumpRetryFunc st1)
              | none => doRequest env client method url opts fuel (bumpRetryFunc st1)
            else (.err respErr, st1)

/-- The fresh per-call state Request builds (provider_client.go lines
350-354): hasReauthenticated false, counters zero, the RawBody reader at
the position the caller supplied it in. -/
def initState (opts : RequestOpts) : DState :=
  { retries := 0, hasReauthenticated := false, rawBody := opts.RawBody
    nTransport := 0, nReauth := 0, nBackoff := 0, nRetryFunc := 0, sendLog := [] }

/-- Request (provider_client.go lines 350-354). -/
def Request (env : Env) (client : ProviderClient) (method url : String)
    (opts : RequestOpts) (fuel : Nat) : ReqResult × DState :=
  doRequest env client method url opts fuel (initState opts)

/-- What a caller of Reauthenticate became after its lock-protected check of
reauthmut.ongoing (provider_client.go lines 280-285): the owner of a fresh
in-flight future, or a waiter on the future installed by the given owner. -/
inductive CoordRole where
  | owner
  | waiter (ownerId : Nat)
deriving DecidableEq, Repr

/-- The atomic events of the reauthentication coordinator. The reauthmut
lock serialises the two critical sections of Reauthenticate, so each is one
event: acquire t is caller t running lines 280-285 (install a future if none
is ongoing, else observe the ongoing one); finish t e is owner t running
lines 301-304 (publish its attempt result e to the future and clear it). -/
inductive CoordEvent where
  | acquire (t : Nat)
  | finish (t : Nat) (e : Option GoError)
deriving DecidableEq, Repr

/-- Coordinator state: ongoing mirrors reauthmut.ongoing (identified by the
owner that installed it); inFlight lists the owners whose attempt has
started and not yet finished; roles records what each acquiring caller
became; published records each completed future and its error; attempts
counts the reauthentication attempts started (each executes
client.ReauthFunc at most once, lines 292-298). -/
structure CoordState where
  ongoing : Option Nat
  inFlight : List Nat
  roles : List (Nat × CoordRole)
  published : List (Nat × Option GoError)
  attempts : Nat
deriving DecidableEq, Repr

def coordInit : CoordState :=
  { ongoing := none, inFlight := [], roles := [], published := [], attempts := 0 }

/-- One coordinator event. An acquire under an idle coordinator installs the
future and starts an attempt; an acquire that observes an ongoing future
only records the caller as its waiter. A finish by the in-flight owner
publishes the result and clears the marker; any other finish is a no-op
(in the source only the owner reaches lines 301-304). -/
def coordStep (s : CoordState) : CoordEvent → CoordState
  | .acquire t =>
      match s.ongoing with
      | none =>
          { s with
            ongoing := some t
            inFlight := t :: s.inFlight
            roles := (t, .owner) :: s.roles
            attempts := s.attempts + 1 }
      | some o => { s with roles := (t, .waiter o) :: s.roles }
  | .finish t e =>
      if s.ongoing = some t then
        { s with
          ongoing := none
          inFlight := s.inFlight.filter (fun x => x ≠ t)
          published := (t, e) :: s.published }
      else s

def coordRun (evs : List CoordEvent) : CoordState :=
  evs.foldl coordStep coordInit

/-- First binding of a key in an association list. -/
def alookup {α : Type} : List (Nat × α) → Nat → Option α
  | [], _ => none
  | p :: t, k => if p.1 = k then some p.2 else alookup t k

/-- The value a caller of Reauthenticate returns: an owner returns the error
it published; a waiter returns ongoing.Get(), the error published on the
future of the owner it observed (provider_client.go lines 287-290). none
means the caller has not yet returned. -/
def threadReturn (s : CoordState) (t : Nat) : Option (Option GoError) :=
  match alookup s.roles t with
  | some .owner => alookup s.published t
  | some (.waiter o) => alookup s.published o
  | none => none

/-- The one-episode trace of claim C1: caller t0 acquires an idle
coordinator, the callers ts acquire while the attempt of t0 is in flight,
then t0 finishes with error e. -/
def episodeRun (t0 : Nat) (ts : List Nat) (e : Option GoError) : CoordState :=
  coordRun (.acquire t0 :: (ts.map .acquire ++ [.finish t0 e]))

/-- The state of a reauthFuture: done mirrors whether the done channel has
been closed, err the published error (provider_client.go lines 120-140). -/
structure ReauthFutureState where
  done : Bool
  err : Option GoError
deriving DecidableEq, Repr

/-- reauthFuture.Get (provider_client.go lines 137-140) as a bounded wait:
each step polls the done channel; a receive from the channel completes only
once it is closed, and the function neither receives a context nor selects
on one, so the cancellation flag of the caller is never consulted. none
means the caller is still blocked after the given number of steps. -/
def reauthFutureGet : Nat → Bool → ReauthFutureState → Option (Option GoError)
  | 0, _, _ => none
  | fuel + 1, ctxCanceled, f =>
      if f.done then some f.err else reauthFutureGet fuel ctxCanceled f

/-- The owner branch of Reauthenticate (provider_client.go lines 292-298):
invoke ReauthFunc when no previous token was supplied or the current token
still equals it; otherwise skip, with a nil error and the token untouched.
The result is (ReauthFunc invoked?, error published, token afterwards),
with (reauthFuncErr, reauthFuncTok) scripting what an actual ReauthFunc
invocation would return and leave as the token. -/
def reauthOwnerStep (previousToken tokenID : String) (reauthFuncErr : Option GoError)
    (reauthFuncTok : String) : Bool × Option GoError × String :=
  if previousToken = "" ∨ tokenID = previousToken then
    (true, reauthFuncErr, reauthFuncTok)
  else
    (false, none, tokenID)

theorem reauthFutureGet_blocked (fuel : Nat) (c : Bool) (f : ReauthFutureState)
    (h : f.done = false) : reauthFutureGet fuel c f = none := by
  induction fuel with
  | zero => rfl
  | succ n ih => simp [reauthFutureGet, h, ih]

/-- C10: SetTokenAndAuthResult is atomic on error: when ExtractTokenID of a
non-nil AuthResult fails, the call returns that error and the client keeps
both its TokenID and its cached authResult; on success both are replaced
together. -/
theorem setTokenAndAuthResult_atomic_on_error (client : ProviderClient) (r : AuthResult) :
    (∀ e : GoError, r.extractTokenID = .error e →
      client.SetTokenAndAuthResult (some r) = (some e, client)) ∧
    (∀ tid : String, r.extractTokenID = .ok tid →
      client.SetTokenAndAuthResult (some r) =
        (none, { client with tokenID := tid, authResult := some r })) := by
  constructor
  · intro e he
    simp [ProviderClient.SetTokenAndAuthResult, he]
  · intro tid ht
    simp [ProviderClient.SetTokenAndAuthResult, ht]

/-- C7: the owner branch of Reauthenticate invokes ReauthFunc exactly when
the previous token is empty or equals the current token; otherwise it skips
as a no-op reporting a nil error with the token left in place, and the
published (possibly skipped) result reaches the owner and every waiter of
the episode. -/
theorem reauth_owner_compare_and_skip (p tok : String) (rerr : Option GoError)
    (rtok : String) :
    ((reauthOwnerStep p tok rerr rtok).1 = true ↔ (p = "" ∨ tok = p)) ∧
    (¬ (p = "" ∨ tok = p) → reauthOwnerStep p tok rerr rtok = (false, none, tok)) ∧
    (∀ t0 w : Nat, w ≠ t0 →
      threadReturn (episodeRun t0 [w] (reauthOwnerStep p tok rerr rtok).2.1) t0 =
        some (reauthOwnerStep p tok rerr rtok).2.1 ∧
      threadReturn (episodeRun t0 [w] (reauthOwnerStep p tok rerr rtok).2.1) w =
        some (reauthOwnerStep p tok rerr rtok).2.1) := by
  refine ⟨?_, ?_, ?_⟩
  · by_cases hc : p = "" ∨ tok = p
    · simp [reauthOwnerStep, hc]
    · simp [reauthOwnerStep, hc]
  · intro hc
    simp [reauthOwnerStep, hc]
  · intro t0 w hw
    constructor
    · simp [episodeRun, coordRun, coordStep, coordInit, threadReturn, alookup, hw]
    · simp [episodeRun, coordRun, coordStep, coordInit, threadReturn, alookup, hw]

/-- C8 amended: the wait on an in-flight reauthentication does not honor the
cancellation context. reauthFuture.Get receives no context and selects only
on the done channel, so its outcome is independent of the cancellation flag:
while the future is not done every waiter stays blocked, canceled or not,
and once it is done the published error is returned. -/
theorem reauth_wait_ignores_cancellation (fuel : Nat) (c c2 : Bool)
    (f : ReauthFutureState) :
    reauthFutureGet fuel c f = reauthFutureGet fuel c2 f ∧
    (f.done = false → reauthFutureGet fuel c f = none) ∧
    (f.done = true → 0 < fuel → reauthFutureGet fuel c f = some f.err) := by
  refine ⟨?_, ?_, ?_⟩
  · induction fuel with
    | zero => rfl
    | succ n ih => by_cases h : f.done <;> simp [reauthFutureGet, h, ih]
  · intro h
    exact reauthFutureGet_blocked fuel c f h
  · intro h hf
    cases fuel with
    | zero => exact absurd hf (by simp)
    | succ n => simp [reauthFutureGet, h]

/-- C8 counterexample: a canceled waiter does not stop waiting: while the
owner's reauthentication is still running (the future is not done), a waiter
whose context is canceled is still blocked after a million polls of the done
channel, contradicting the claim that it returns instead of blocking. -/
theorem canceled_waiter_still_blocked_cex :
    reauthFutureGet 1000000 true { done := false, err := none } = none :=
  reauthFutureGet_blocked 1000000 true { done := false, err := none } rfl

/-- A client holding a token, with every optional hook absent. -/
def omitClient : ProviderClient where
  tokenID := "tok"
  authResult := none
  throwaway := false
  hasReauthFunc := false
  hasRetryBackoffFunc := false
  maxBackoffRetries := 0
  hasRetryFunc := false
  userAgentPrepend := []

/-- Options asking for the authentication header to be omitted. -/
def omitOpts : RequestOpts := { OmitHeaders := ["X-Auth-Token"] }

/-- C6 counterexample: listing X-Auth-Token in OmitHeaders does not keep it
off the outbound request: doRequest applies the AuthenticatedHeaders
bindings after the OmitHeaders deletions (provider_client.go lines 407-414),
so the final headers still carry the token. -/
theorem omit_auth_header_not_honoured_cex :
    "X-Auth-Token" ∈ omitOpts.OmitHeaders ∧
    (buildRequestHeaders omitClient omitOpts).hget "X-Auth-Token" = some "tok" := by
  constructor
  · simp [omitOpts]
  · rfl

/-- C6 amended: headers are applied as defaults, then MoreHeaders, then the
OmitHeaders removals — but the authentication header is applied after the
removals. A removal therefore wins for every header except X-Auth-Token:
an omitted name other than X-Auth-Token is absent from the final headers,
while X-Auth-Token is present with the client token whenever the client is
not a throwaway and holds a non-empty token, even when listed in
OmitHeaders. -/
theorem header_order_and_omissions (client : ProviderClient) (opts : RequestOpts) :
    (∀ n, n ∈ opts.OmitHeaders → n ≠ "X-Auth-Token" →
      (buildRequestHeaders client opts).hget n = none) ∧
    (client.throwaway = false → client.tokenID ≠ "" →
      (buildRequestHeaders client opts).hget "X-Auth-Token" = some client.tokenID) := by
  constructor
  · intro n hn hne
    unfold buildRequestHeaders ProviderClient.AuthenticatedHeadersMap
    by_cases ht : client.throwaway = true
    · simp [ht, hget_foldl_hdel, hn]
    · by_cases htok : client.tokenID = ""
      · simp [ht, htok, hget_foldl_hdel, hn]
      · simp [ht, htok]
        rw [Header.hget_hset_ne _ _ _ _ hne]
        simp [hget_foldl_hdel, hn]
  · intro ht htok
    unfold buildRequestHeaders ProviderClient.AuthenticatedHeadersMap
    simp [ht, htok]
    exact Header.hget_hset_self _ _ _

theorem coord_waiter_fold (ts : List Nat) (s : CoordState) (o : Nat)
    (h : s.ongoing = some o) :
    List.foldl coordStep s (ts.map CoordEvent.acquire) =
      { s with roles := (ts.reverse.map (fun w => (w, CoordRole.waiter o))) ++ s.roles } := by
  induction ts generalizing s with
  | nil => simp
  | cons w t ih =>
      simp only [List.map_cons, List.foldl_cons]
      have hstep : coordStep s (.acquire w) =
          { s with roles := (w, CoordRole.waiter o) :: s.roles } := by
        simp [coordStep, h]
      rw [hstep, ih { s with roles := (w, CoordRole.waiter o) :: s.roles } h]
      simp [List.map_append]

theorem alookup_const_map (l : List Nat) (w : Nat) (r : CoordRole)
    (rest : List (Nat × CoordRole)) :
    alookup ((l.map (fun x => (x, r))) ++ rest) w =
      if w ∈ l then some r else alookup rest w := by
  induction l with
  | nil => simp
  | cons x t ih =>
      by_cases hx : x = w
      · simp [alookup, hx]
      · have hxw : ¬ (w = x) := fun hc => hx hc.symm
        simp [alookup, hx, hxw, ih]

/-- The coordinator invariant: the owners in flight are exactly the owner of
the ongoing future, when there is one. -/
def coordInv (s : CoordState) : Prop := s.inFlight = s.ongoing.toList

theorem coordStep_inv (s : CoordState) (ev : CoordEvent) (h : coordInv s) :
    coordInv (coordStep s ev) := by
  cases ev with
  | acquire t =>
      cases ho : s.ongoing with
      | none =>
          have hempty : s.inFlight = [] := by simpa [coordInv, ho] using h
          simp [coordInv, coordStep, ho, hempty]
      | some o => simpa [coordInv, coordStep, ho] using h
  | finish t e =>
      by_cases ht : s.ongoing = some t
      · have hone : s.inFlight = [t] := by simpa [coordInv, ht] using h
        simp [coordInv, coordStep, ht, hone]
      · simpa [coordInv, coordStep, ht] using h

theorem coordRun_inFlight_le (evs : List CoordEvent) :
    (coordRun evs).inFlight.length ≤ 1 := by
  have hfold : ∀ (l : List CoordEvent) (s : CoordState),
      coordInv s → coordInv (List.foldl coordStep s l) := by
    intro l
    induction l with
    | nil => intro s hs; exact hs
    | cons a t ih => intro s hs; exact ih _ (coordStep_inv s a hs)
  have h : coordInv (coordRun evs) := hfold evs coordInit rfl
  rw [coordInv] at h
  rw [h]
  cases (coordRun evs).ongoing <;> simp

theorem episodeRun_eq (t0 : Nat) (ts : List Nat) (e : Option GoError) :
    episodeRun t0 ts e =
      { ongoing := none, inFlight := [],
        roles := (ts.reverse.map (fun w => (w, CoordRole.waiter t0))) ++ [(t0, CoordRole.owner)],
        published := [(t0, e)], attempts := 1 } := by
  unfold episodeRun coordRun
  rw [List.foldl_cons, List.foldl_append]
  have h1 : coordStep coordInit (.acquire t0) =
      { ongoing := some t0, inFlight := [t0], roles := [(t0, CoordRole.owner)],
        published := [], attempts := 1 } := rfl
  rw [h1, coord_waiter_fold ts _ t0 rfl]
  simp [coordStep]

/-- C1: single-flight reauthentication. In the episode where caller t0 finds
the coordinator idle and the callers ts arrive while its attempt is in
flight, exactly one attempt is started (so ReauthFunc runs at most once),
every caller of the episode — the owner and each waiter — returns the one
published result e, each of the callers ts is recorded as a waiter on the
future of t0 and so never invokes ReauthFunc itself, and over every event
trace whatsoever at most one attempt is in flight at any instant. -/
theorem reauthenticate_single_flight (t0 : Nat) (ts : List Nat) (e : Option GoError) :
    (episodeRun t0 ts e).attempts = 1 ∧
    threadReturn (episodeRun t0 ts e) t0 = some e ∧
    (∀ w, w ∈ ts →
      alookup (episodeRun t0 ts e).roles w = some (CoordRole.waiter t0) ∧
      threadReturn (episodeRun t0 ts e) w = some e) ∧
    (∀ evs : List CoordEvent, (coordRun evs).inFlight.length ≤ 1) := by
  refine ⟨?_, ?_, ?_, fun evs => coordRun_inFlight_le evs⟩
  · rw [episodeRun_eq]
  · rw [episodeRun_eq]
    unfold threadReturn
    rw [alookup_const_map]
    by_cases ht : t0 ∈ ts.reverse
    · simp [ht, alookup]
    · simp [ht, alookup]
  · intro w hw
    rw [episodeRun_eq]
    have hw2 : w ∈ ts.reverse := List.mem_reverse.mpr hw
    constructor
    · rw [alookup_const_map]
      simp [hw2]
    · unfold threadReturn
      rw [alookup_const_map]
      simp [hw2, alookup]

theorem doRequest_flag_frozen (env : Env) (client : ProviderClient) (method url : String)
    (opts : RequestOpts) :
    ∀ (fuel : Nat) (st : DState), st.hasReauthenticated = true →
      (doRequest env client method url opts fuel st).2.nReauth = st.nReauth ∧
      (doRequest env client method url opts fuel st).2.hasReauthenticated = true := by
  intro fuel
  induction fuel with
  | zero => intro st h; exact ⟨rfl, h⟩
  | succ n ih =>
      intro st h
      simp only [doRequest, sendOnce, h]
      repeat' split
      all_goals first
        | exact ⟨rfl, rfl⟩
        | exact ⟨rfl, h⟩
        | exact ih _ h
        | exact ih _ rfl
        | simp_all only [Bool.true_eq_false, and_false, false_and, and_self]

theorem doRequest_nReauth_le (env : Env) (client : ProviderClient) (method url : String)
    (opts : RequestOpts) :
    ∀ (fuel : Nat) (st : DState), st.hasReauthenticated = false →
      (doRequest env client method url opts fuel st).2.nReauth ≤ st.nReauth + 1 := by
  intro fuel
  induction fuel with
  | zero => intro st h; exact Nat.le_succ _
  | succ n ih =>
      intro st h
      simp only [doRequest, sendOnce, h]
      repeat' split
      any_goals first
        | exact Nat.le_succ _
        | exact Nat.le_refl _
        | exact ih _ rfl
        | exact ih _ h
      all_goals
        rename_i rb hseek x c st5 heq
        have h2 : st5 = (doRequest env client method url opts n
            (markReauthed { bumpReauth (sendOnce st) with rawBody := rb })).2 :=
          (congrArg Prod.snd heq).symm
        rw [h2]
        exact Nat.le_of_eq
          ((doRequest_flag_frozen env client method url opts n
            (markReauthed { bumpReauth (sendOnce st) with rawBody := rb }) rfl).1)

theorem doRequest_nBackoff_mono (env : Env) (client : ProviderClient) (method url : String)
    (opts : RequestOpts) :
    ∀ (fuel : Nat) (st : DState),
      st.nBackoff ≤ (doRequest env client method url opts fuel st).2.nBackoff := by
  intro fuel
  induction fuel with
  | zero => intro st; exact Nat.le_refl _
  | succ n ih =>
      intro st
      have hbk : st.nBackoff ≤
          (doRequest env client method url opts n (bumpBackoff (sendOnce st))).2.nBackoff :=
        Nat.le_trans (Nat.le_succ st.nBackoff) (ih (bumpBackoff (sendOnce st)))
      have hrf2 : st.nBackoff ≤
          (doRequest env client method url opts n (bumpRetryFunc (sendOnce st))).2.nBackoff :=
        ih (bumpRetryFunc (sendOnce st))
      simp only [doRequest, sendOnce]
      repeat' split
      any_goals first
        | exact Nat.le_refl _
        | exact Nat.le_succ _
        | exact hrf2
        | exact hbk
      all_goals
        rename_i rb hseek x c st5 heq
        have h2 : st5 = (doRequest env client method url opts n
            (markReauthed { bumpReauth (sendOnce st) with rawBody := rb })).2 :=
          (congrArg Prod.snd heq).symm
        rw [h2]
        exact ih (markReauthed { bumpReauth (sendOnce st) with rawBody := rb })

theorem doRequest_ratelimit_run (env : Env) (client : ProviderClient) (method url : String)
    (opts : RequestOpts)
    (hT : ∀ m, env.transport m = .status 429)
    (hB : ∀ m, env.backoff m = none)
    (hbf : client.hasRetryBackoffFunc = true)
    (hrf : client.hasRetryFunc = false)
    (hok : 429 ∉ opts.OkCodes.getD (defaultOkCodes method))
    (hc1 : ¬ (opts.JSONBody.isSome = true ∧ opts.RawBody.isSome = true))
    (hc2 : ¬ (opts.KeepResponseBody = true ∧ opts.hasJSONResponse = true)) :
    ∀ (fuel : Nat) (st : DState),
      st.retries ≤ effectiveMaxBackoffRetries client →
      effectiveMaxBackoffRetries client - st.retries < fuel →
      (doRequest env client method url opts fuel st).1 =
        .err (.unexpectedResponseCode method url
          (opts.OkCodes.getD (defaultOkCodes method)) 429) ∧
      (doRequest env client method url opts fuel st).2.nBackoff =
        st.nBackoff + (effectiveMaxBackoffRetries client - st.retries) := by
  intro fuel
  induction fuel with
  | zero => intro st hle hlt; omega
  | succ n ih =>
      intro st hle hlt
      simp only [doRequest, sendOnce]
      rw [if_neg hc1, if_neg hc2]
      split
      · rename_i tag heqT
        rw [hT st.nTransport] at heqT
        simp at heqT
      · rename_i code heqC
        rw [hT st.nTransport] at heqC
        injection heqC with hcode
        subst hcode
        rw [if_neg hok]
        split
        · rename_i hc
          exact absurd hc.1 (by decide)
        · by_cases hr : st.retries < effectiveMaxBackoffRetries client
          · rw [if_pos ⟨Or.inl rfl, hbf, hr⟩, hB st.nBackoff]
            have h1 : (bumpBackoff (sendOnce st)).retries ≤ effectiveMaxBackoffRetries client := by
              show st.retries + 1 ≤ _
              omega
            have h2 : effectiveMaxBackoffRetries client - (bumpBackoff (sendOnce st)).retries < n := by
              show effectiveMaxBackoffRetries client - (st.retries + 1) < n
              omega
            have hrec := ih (bumpBackoff (sendOnce st)) h1 h2
            refine ⟨hrec.1, ?_⟩
            show (doRequest env client method url opts n (bumpBackoff (sendOnce st))).2.nBackoff =
              st.nBackoff + (effectiveMaxBackoffRetries client - st.retries)
            rw [hrec.2]
            show st.nBackoff + 1 + (effectiveMaxBackoffRetries client - (st.retries + 1)) =
              st.nBackoff + (effectiveMaxBackoffRetries client - st.retries)
            omega
          · rw [if_neg (fun hc => hr hc.2.2), if_neg (by simp [hrf])]
            have hzero : effectiveMaxBackoffRetries client - st.retries = 0 := by omega
            refine ⟨rfl, ?_⟩
            rw [hzero]
            rfl

/-- The per-call state entering the retried request after a successful 401
reauthentication: transport call logged, Reauthenticate counted, the RawBody
rewound when seekable, the hasReauthenticated flag set. -/
def reauthNext (st : DState) : DState :=
  markReauthed { bumpReauth (sendOnce st) with
    rawBody := (seekCheck (bumpReauth (sendOnce st)).rawBody).2 }

theorem doRequest_ok_step (env : Env) (client : ProviderClient) (method url : String)
    (opts : RequestOpts) (fuel : Nat) (st : DState) (c : Nat)
    (hc1 : ¬ (opts.JSONBody.isSome = true ∧ opts.RawBody.isSome = true))
    (hc2 : ¬ (opts.KeepResponseBody = true ∧ opts.hasJSONResponse = true))
    (hT : env.transport st.nTransport = .status c)
    (hok : c ∈ opts.OkCodes.getD (defaultOkCodes method))
    (hjr : opts.hasJSONResponse = false) :
    doRequest env client method url opts (fuel + 1) st = (.ok c, sendOnce st) := by
  simp only [doRequest]
  rw [if_neg hc1, if_neg hc2]
  split
  · rename_i tag heqT
    rw [hT] at heqT
    simp at heqT
  · rename_i code heqC
    rw [hT] at heqC
    injection heqC with hcode
    subst hcode
    rw [if_pos hok, if_neg (fun hx => by rw [hjr] at hx; exact absurd hx.1 (by simp))]

theorem doRequest_plain_fail_step (env : Env) (client : ProviderClient) (method url : String)
    (opts : RequestOpts) (fuel : Nat) (st : DState) (c : Nat)
    (hc1 : ¬ (opts.JSONBody.isSome = true ∧ opts.RawBody.isSome = true))
    (hc2 : ¬ (opts.KeepResponseBody = true ∧ opts.hasJSONResponse = true))
    (hT : env.transport st.nTransport = .status c)
    (hok : c ∉ opts.OkCodes.getD (defaultOkCodes method))
    (h401 : ¬ (c = 401 ∧ client.hasReauthFunc = true ∧ st.hasReauthenticated = false))
    (h429 : ¬ ((c = 429 ∨ c = 498) ∧ client.hasRetryBackoffFunc = true
      ∧ st.retries < effectiveMaxBackoffRetries client))
    (hrf : client.hasRetryFunc = false) :
    doRequest env client method url opts (fuel + 1) st =
      (.err (.unexpectedResponseCode method url
        (opts.OkCodes.getD (defaultOkCodes method)) c), sendOnce st) := by
  simp only [doRequest]
  rw [if_neg hc1, if_neg hc2]
  split
  · rename_i tag heqT
    rw [hT] at heqT
    simp at heqT
  · rename_i code heqC
    rw [hT] at heqC
    injection heqC with hcode
    subst hcode
    rw [if_neg hok]
    have h401b : ¬ (c = 401 ∧ client.hasReauthFunc = true
        ∧ (sendOnce st).hasReauthenticated = false) := h401
    have h429b : ¬ ((c = 429 ∨ c = 498) ∧ client.hasRetryBackoffFunc = true
        ∧ (sendOnce st).retries < effectiveMaxBackoffRetries client) := h429
    rw [if_neg h401b, if_neg h429b, if_neg (by simp [hrf])]

theorem doRequest_reauth_step (env : Env) (client : ProviderClient) (method url : String)
    (opts : RequestOpts) (fuel : Nat) (st : DState)
    (hc1 : ¬ (opts.JSONBody.isSome = true ∧ opts.RawBody.isSome = true))
    (hc2 : ¬ (opts.KeepResponseBody = true ∧ opts.hasJSONResponse = true))
    (hT : env.transport st.nTransport = .status 401)
    (hok : 401 ∉ opts.OkCodes.getD (defaultOkCodes method))
    (hrff : client.hasReauthFunc = true)
    (hflag : st.hasReauthenticated = false)
    (hre : env.reauth st.nReauth = none)
    (hsk : (seekCheck (bumpReauth (sendOnce st)).rawBody).1 = none) :
    doRequest env client method url opts (fuel + 1) st =
      (match doRequest env client method url opts fuel (reauthNext st) with
        | (.ok c, st5) => (.ok c, st5)
        | (.err e, st5) => (.err (.errorAfterReauthentication e), st5)) := by
  simp only [doRequest]
  rw [if_neg hc1, if_neg hc2]
  split
  · rename_i tag heqT
    rw [hT] at heqT
    simp at heqT
  · rename_i code heqC
    rw [hT] at heqC
    injection heqC with hcode
    subst hcode
    rw [if_neg hok, if_pos ⟨rfl, hrff, hflag⟩]
    split
    · rename_i e heqR
      have hre2 : env.reauth (sendOnce st).nReauth = none := hre
      rw [hre2] at heqR
      simp at heqR
    · split
      · rename_i e rb heqS
        have hfst := congrArg Prod.fst heqS
        rw [hsk] at hfst
        simp at hfst
      · rename_i rb heqS
        have hrb : rb = (seekCheck (bumpReauth (sendOnce st)).rawBody).2 :=
          (congrArg Prod.snd heqS).symm
        subst hrb
        rfl

theorem doRequest_backoff_step (env : Env) (client : ProviderClient) (method url : String)
    (opts : RequestOpts) (fuel : Nat) (st : DState) (c : Nat)
    (hc1 : ¬ (opts.JSONBody.isSome = true ∧ opts.RawBody.isSome = true))
    (hc2 : ¬ (opts.KeepResponseBody = true ∧ opts.hasJSONResponse = true))
    (hT : env.transport st.nTransport = .status c)
    (hok : c ∉ opts.OkCodes.getD (defaultOkCodes method))
    (hc429 : c = 429 ∨ c = 498)
    (hne : ¬ (c = 401 ∧ client.hasReauthFunc = true ∧ st.hasReauthenticated = false))
    (hbf : client.hasRetryBackoffFunc = true)
    (hlt : st.retries < effectiveMaxBackoffRetries client)
    (hB : env.backoff st.nBackoff = none) :
    doRequest env client method url opts (fuel + 1) st =
      doRequest env client method url opts fuel (bumpBackoff (sendOnce st)) := by
  simp only [doRequest]
  rw [if_neg hc1, if_neg hc2]
  split
  · rename_i tag heqT
    rw [hT] at heqT
    simp at heqT
  · rename_i code heqC
    rw [hT] at heqC
    injection heqC with hcode
    subst hcode
    rw [if_neg hok]
    have hne2 : ¬ (c = 401 ∧ client.hasReauthFunc = true
        ∧ (sendOnce st).hasReauthenticated = false) := hne
    have hpos : (c = 429 ∨ c = 498) ∧ client.hasRetryBackoffFunc = true
        ∧ (sendOnce st).retries < effectiveMaxBackoffRetries client := ⟨hc429, hbf, hlt⟩
    rw [if_neg hne2, if_pos hpos]
    split
    · rename_i e heqB
      have hB2 : env.backoff (sendOnce st).nBackoff = none := hB
      rw [hB2] at heqB
      simp at heqB
    · rfl

theorem doRequest_retryfunc_step (env : Env) (client : ProviderClient) (method url : String)
    (opts : RequestOpts) (fuel : Nat) (st : DState) (c : Nat)
    (hc1 : ¬ (opts.JSONBody.isSome = true ∧ opts.RawBody.isSome = true))
    (hc2 : ¬ (opts.KeepResponseBody = true ∧ opts.hasJSONResponse = true))
    (hT : env.transport st.nTransport = .status c)
    (hok : c ∉ opts.OkCodes.getD (defaultOkCodes method))
    (h401 : ¬ (c = 401 ∧ client.hasReauthFunc = true ∧ st.hasReauthenticated = false))
    (h429 : ¬ ((c = 429 ∨ c = 498) ∧ client.hasRetryBackoffFunc = true
      ∧ st.retries < effectiveMaxBackoffRetries client))
    (hrf : client.hasRetryFunc = true)
    (hR : env.retryFunc st.nRetryFunc = none) :
    doRequest env client method url opts (fuel + 1) st =
      doRequest env client method url opts fuel (bumpRetryFunc (sendOnce st)) := by
  simp only [doRequest]
  rw [if_neg hc1, if_neg hc2]
  split
  · rename_i tag heqT
    rw [hT] at heqT
    simp at heqT
  · rename_i code heqC
    rw [hT] at heqC
    injection heqC with hcode
    subst hcode
    rw [if_neg hok]
    have h401b : ¬ (c = 401 ∧ client.hasReauthFunc = true
        ∧ (sendOnce st).hasReauthenticated = false) := h401
    have h429b : ¬ ((c = 429 ∨ c = 498) ∧ client.hasRetryBackoffFunc = true
        ∧ (sendOnce st).retries < effectiveMaxBackoffRetries client) := h429
    rw [if_neg h401b, if_neg h429b, if_pos hrf]
    split
    · rename_i e heqR
      have hR2 : env.retryFunc (sendOnce st).nRetryFunc = none := hR
      rw [hR2] at heqR
      simp at heqR
    · rfl

theorem doRequest_transporterr_retry_step (env : Env) (client : ProviderClient)
    (method url : String) (opts : RequestOpts) (fuel : Nat) (st : DState) (tag : Nat)
    (hc1 : ¬ (opts.JSONBody.isSome = true ∧ opts.RawBody.isSome = true))
    (hc2 : ¬ (opts.KeepResponseBody = true ∧ opts.hasJSONResponse = true))
    (hT : env.transport st.nTransport = .transportErr tag)
    (hrf : client.hasRetryFunc = true)
    (hR : env.retryFunc st.nRetryFunc = none) :
    doRequest env client method url opts (fuel + 1) st =
      doRequest env client method url opts fuel (bumpRetryFunc (sendOnce st)) := by
  simp only [doRequest]
  rw [if_neg hc1, if_neg hc2]
  split
  · rename_i tag2 heqT
    rw [hT] at heqT
    injection heqT with htag
    subst htag
    rw [if_pos hrf]
    split
    · rename_i e heqR
      have hR2 : env.retryFunc (sendOnce st).nRetryFunc = none := hR
      rw [hR2] at heqR
      simp at heqR
    · rfl
  · rename_i code heqC
    rw [hT] at heqC
    simp at heqC

theorem doRequest_reauth_seekfail_step (env : Env) (client : ProviderClient)
    (method url : String) (opts : RequestOpts) (fuel : Nat) (st : DState) (e : GoError)
    (hc1 : ¬ (opts.JSONBody.isSome = true ∧ opts.RawBody.isSome = true))
    (hc2 : ¬ (opts.KeepResponseBody = true ∧ opts.hasJSONResponse = true))
    (hT : env.transport st.nTransport = .status 401)
    (hok : 401 ∉ opts.OkCodes.getD (defaultOkCodes method))
    (hrff : client.hasReauthFunc = true)
    (hflag : st.hasReauthenticated = false)
    (hre : env.reauth st.nReauth = none)
    (hsk : (seekCheck (bumpReauth (sendOnce st)).rawBody).1 = some e) :
    doRequest env client method url opts (fuel + 1) st =
      (.err e, bumpReauth (sendOnce st)) := by
  simp only [doRequest]
  rw [if_neg hc1, if_neg hc2]
  split
  · rename_i tag heqT
    rw [hT] at heqT
    simp at heqT
  · rename_i code heqC
    rw [hT] at heqC
    injection heqC with hcode
    subst hcode
    rw [if_neg hok, if_pos ⟨rfl, hrff, hflag⟩]
    split
    · rename_i e2 heqR
      have hre2 : env.reauth (sendOnce st).nReauth = none := hre
      rw [hre2] at heqR
      simp at heqR
    · split
      · rename_i e2 rb heqS
        have hfst := congrArg Prod.fst heqS
        rw [hsk] at hfst
        injection hfst with he2
        subst he2
        rfl
      · rename_i rb heqS
        have hfst := congrArg Prod.fst heqS
        rw [hsk] at hfst
        simp at hfst

/-- Transport: first call 401, then 500; reauthentication succeeds. -/
def env401then500 : Env where
  transport := fun n => if n = 0 then .status 401 else .status 500
  reauth := fun _ => none
  backoff := fun _ => none
  retryFunc := fun _ => none
  jsonDecode := fun _ => none

/-- A client with only a ReauthFunc configured. -/
def clientReauth : ProviderClient where
  tokenID := "tok"
  authResult := none
  throwaway := false
  hasReauthFunc := true
  hasRetryBackoffFunc := false
  maxBackoffRetries := 0
  hasRetryFunc := false
  userAgentPrepend := []

/-- C3 amended: when a 401 triggers a successful reauthentication and the
retried request fails with another unexpected status, the error returned is
ErrErrorAfterReauthentication wrapping only the second failure (doRequest
assigns only ErrOriginal := the retried-call error, lines 479-492); the
original 401 unexpected-response error is discarded and occurs nowhere in
the returned error. -/
theorem reauth_retry_failure_wraps_second_error_only (env : Env) (client : ProviderClient)
    (method url : String) (opts : RequestOpts) (fuel : Nat) (c2 : Nat)
    (hc1 : ¬ (opts.JSONBody.isSome = true ∧ opts.RawBody.isSome = true))
    (hc2 : ¬ (opts.KeepResponseBody = true ∧ opts.hasJSONResponse = true))
    (hT0 : env.transport 0 = .status 401)
    (hT1 : env.transport 1 = .status c2)
    (hok1 : 401 ∉ opts.OkCodes.getD (defaultOkCodes method))
    (hok2 : c2 ∉ opts.OkCodes.getD (defaultOkCodes method))
    (hrff : client.hasReauthFunc = true)
    (hre : env.reauth 0 = none)
    (hraw : opts.RawBody = none)
    (hbf : client.hasRetryBackoffFunc = false)
    (hrf : client.hasRetryFunc = false)
    (hne : c2 ≠ 401) :
    (Request env client method url opts (fuel + 1 + 1)).1 =
      .err (.errorAfterReauthentication (.unexpectedResponseCode method url
        (opts.OkCodes.getD (defaultOkCodes method)) c2)) ∧
    GoError.occursIn
      (.unexpectedResponseCode method url (opts.OkCodes.getD (defaultOkCodes method)) 401)
      (.errorAfterReauthentication (.unexpectedResponseCode method url
        (opts.OkCodes.getD (defaultOkCodes method)) c2)) = false := by
  constructor
  · unfold Request
    have hT0x : env.transport (initState opts).nTransport = .status 401 := hT0
    have hrex : env.reauth (initState opts).nReauth = none := hre
    have hskx : (seekCheck (bumpReauth (sendOnce (initState opts))).rawBody).1 = none := by
      simp [bumpReauth, sendOnce, initState, hraw, seekCheck]
    rw [doRequest_reauth_step env client method url opts (fuel + 1) (initState opts)
      hc1 hc2 hT0x hok1 hrff rfl hrex hskx]
    have hTin : env.transport (reauthNext (initState opts)).nTransport = .status c2 := hT1
    have h401in : ¬ (c2 = 401 ∧ client.hasReauthFunc = true
        ∧ (reauthNext (initState opts)).hasReauthenticated = false) :=
      fun hx => hne hx.1
    have h429in : ¬ ((c2 = 429 ∨ c2 = 498) ∧ client.hasRetryBackoffFunc = true
        ∧ (reauthNext (initState opts)).retries < effectiveMaxBackoffRetries client) :=
      fun hx => absurd hx.2.1 (by simp [hbf])
    rw [doRequest_plain_fail_step env client method url opts fuel (reauthNext (initState opts))
      c2 hc1 hc2 hTin hok2 h401in h429in hrf]
  · simp only [GoError.occursIn]
    simp [hne, Ne.symm hne]

/-- C3 counterexample: transport answers 401 then (after a successful
reauthentication) 500. The returned error wraps only the 500
unexpected-response error; the original 401 unexpected-response error does
not occur in the returned error, contradicting the claim that the composite
identifies both failures. -/
theorem reauth_retry_failure_discards_first_error_cex :
    (Request env401then500 clientReauth "GET" "u" {} 2).1 =
      .err (.errorAfterReauthentication (.unexpectedResponseCode "GET" "u" [200] 500)) ∧
    GoError.occursIn (.unexpectedResponseCode "GET" "u" [200] 401)
      (.errorAfterReauthentication (.unexpectedResponseCode "GET" "u" [200] 500)) = false := by
  decide

/-- C3 witness: the amended statement at the concrete 401-then-500 script. -/
theorem reauth_retry_failure_wraps_second_error_only_witness :
    (Request env401then500 clientReauth "GET" "u" {} 2).1 =
      .err (.errorAfterReauthentication (.unexpectedResponseCode "GET" "u"
        (({} : RequestOpts).OkCodes.getD (defaultOkCodes "GET")) 500)) ∧
    GoError.occursIn
      (.unexpectedResponseCode "GET" "u"
        (({} : RequestOpts).OkCodes.getD (defaultOkCodes "GET")) 401)
      (.errorAfterReauthentication (.unexpectedResponseCode "GET" "u"
        (({} : RequestOpts).OkCodes.getD (defaultOkCodes "GET")) 500)) = false :=
  reauth_retry_failure_wraps_second_error_only env401then500 clientReauth "GET" "u" {} 0 500
    (by decide) (by decide) rfl rfl (by decide) (by decide) rfl rfl rfl rfl rfl (by decide)

/-- C2: a single logical call reauthenticates at most once. Request starts
its per-call state with hasReauthenticated false; once the flag is set,
the rest of the call never invokes Reauthenticate again (the counter is
frozen) whatever the transport returns; and a complete call starting from
the fresh state performs at most one reauthentication no matter how many
401 responses arrive. -/
theorem request_reauthenticates_at_most_once (env : Env) (client : ProviderClient)
    (method url : String) (opts : RequestOpts) (fuel : Nat) :
    (initState opts).hasReauthenticated = false ∧
    (∀ st : DState, st.hasReauthenticated = true →
      (doRequest env client method url opts fuel st).2.nReauth = st.nReauth) ∧
    (Request env client method url opts fuel).2.nReauth ≤ 1 := by
  refine ⟨rfl, fun st h => (doRequest_flag_frozen env client method url opts fuel st h).1, ?_⟩
  have h := doRequest_nReauth_le env client method url opts fuel (initState opts) rfl
  simpa [Request, initState] using h

/-- A transport that answers 429 to every request; every hook succeeds. -/
def env429 : Env where
  transport := fun _ => .status 429
  reauth := fun _ => none
  backoff := fun _ => none
  retryFunc := fun _ => none
  jsonDecode := fun _ => none

/-- A client with only a backoff hook, ceiling two. -/
def clientBackoff2 : ProviderClient where
  tokenID := ""
  authResult := none
  throwaway := false
  hasReauthFunc := false
  hasRetryBackoffFunc := true
  maxBackoffRetries := 2
  hasRetryFunc := false
  userAgentPrepend := []

/-- C4: the rate-limit retry ceiling. With a backoff hook configured, no
generic RetryFunc, and a transport answering 429 to every call, a logical
call invokes the backoff hook exactly K times (K the effective ceiling) and
the (K+1)-th consecutive 429 is surfaced as the unexpected-response error
with no further backoff invocation; and whenever the backoff hook itself
returns an error on a rate-limited response, that error is surfaced
immediately with no further transport call. -/
theorem ratelimit_backoff_ceiling (env : Env) (client : ProviderClient)
    (method url : String) (opts : RequestOpts) (K fuel : Nat)
    (hK : effectiveMaxBackoffRetries client = K)
    (hT : ∀ m, env.transport m = .status 429)
    (hB : ∀ m, env.backoff m = none)
    (hbf : client.hasRetryBackoffFunc = true)
    (hrf : client.hasRetryFunc = false)
    (hok : 429 ∉ opts.OkCodes.getD (defaultOkCodes method))
    (hc1 : ¬ (opts.JSONBody.isSome = true ∧ opts.RawBody.isSome = true))
    (hc2 : ¬ (opts.KeepResponseBody = true ∧ opts.hasJSONResponse = true))
    (hfuel : K < fuel) :
    (Request env client method url opts fuel).1 =
      .err (.unexpectedResponseCode method url
        (opts.OkCodes.getD (defaultOkCodes method)) 429) ∧
    (Request env client method url opts fuel).2.nBackoff = K ∧
    (∀ (env2 : Env) (st : DState) (fuel2 : Nat) (e : GoError),
      env2.transport st.nTransport = .status 429 →
      env2.backoff st.nBackoff = some e →
      st.retries < effectiveMaxBackoffRetries client →
      doRequest env2 client method url opts (fuel2 + 1) st =
        (.err e, bumpBackoff (sendOnce st))) := by
  have hrun := doRequest_ratelimit_run env client method url opts hT hB hbf hrf hok hc1 hc2
    fuel (initState opts) (by simp [initState]) (by simp [initState]; omega)
  refine ⟨hrun.1, ?_, ?_⟩
  · show (doRequest env client method url opts fuel (initState opts)).2.nBackoff = K
    rw [hrun.2, hK]
    simp [initState]
  · intro env2 st fuel2 e hT2 hB2 hlt
    simp only [doRequest]
    rw [if_neg hc1, if_neg hc2]
    split
    · rename_i tag heqT
      rw [hT2] at heqT
      simp at heqT
    · rename_i code heqC
      rw [hT2] at heqC
      injection heqC with hcode
      subst hcode
      rw [if_neg hok]
      rw [if_neg (fun hx : (429 : Nat) = 401 ∧ _ ∧ _ => absurd hx.1 (by decide))]
      have hpos : ((429 : Nat) = 429 ∨ (429 : Nat) = 498) ∧ client.hasRetryBackoffFunc = true
          ∧ (sendOnce st).retries < effectiveMaxBackoffRetries client := ⟨Or.inl rfl, hbf, hlt⟩
      rw [if_pos hpos]
      have hB3 : env2.backoff (sendOnce st).nBackoff = some e := hB2
      rw [hB3]

/-- C4 witness: ceiling two, three 429 responses: the backoff hook runs
twice, the third 429 is surfaced; a backoff error is surfaced at once. -/
theorem ratelimit_backoff_ceiling_witness :
    (Request env429 clientBackoff2 "GET" "u" {} 3).1 =
      .err (.unexpectedResponseCode "GET" "u"
        (({} : RequestOpts).OkCodes.getD (defaultOkCodes "GET")) 429) ∧
    (Request env429 clientBackoff2 "GET" "u" {} 3).2.nBackoff = 2 ∧
    (∀ (env2 : Env) (st : DState) (fuel2 : Nat) (e : GoError),
      env2.transport st.nTransport = .status 429 →
      env2.backoff st.nBackoff = some e →
      st.retries < effectiveMaxBackoffRetries clientBackoff2 →
      doRequest env2 clientBackoff2 "GET" "u" {} (fuel2 + 1) st =
        (.err e, bumpBackoff (sendOnce st))) :=
  ratelimit_backoff_ceiling env429 clientBackoff2 "GET" "u" {} 2 3
    (by decide) (fun m => rfl) (fun m => rfl) rfl rfl (by decide)
    (by decide) (by decide) (by decide)

/-- A client with a backoff hook and the ceiling left unset (zero). -/
def clientBackoff0 : ProviderClient where
  tokenID := ""
  authResult := none
  throwaway := false
  hasReauthFunc := false
  hasRetryBackoffFunc := true
  maxBackoffRetries := 0
  hasRetryFunc := false
  userAgentPrepend := []

/-- C9: a zero rate-limit ceiling cannot be configured: when
MaxBackoffRetries is zero the effective ceiling is DefaultMaxBackoffRetries
(60), so with a backoff hook configured the first 429 of a logical call
always invokes the hook at least once instead of being surfaced directly. -/
theorem zero_backoff_ceiling_impossible (env : Env) (client : ProviderClient)
    (method url : String) (opts : RequestOpts) (fuel : Nat)
    (h0 : client.maxBackoffRetries = 0)
    (hbf : client.hasRetryBackoffFunc = true)
    (hT0 : env.transport 0 = .status 429)
    (hok : 429 ∉ opts.OkCodes.getD (defaultOkCodes method))
    (hc1 : ¬ (opts.JSONBody.isSome = true ∧ opts.RawBody.isSome = true))
    (hc2 : ¬ (opts.KeepResponseBody = true ∧ opts.hasJSONResponse = true)) :
    effectiveMaxBackoffRetries client = DefaultMaxBackoffRetries ∧
    DefaultMaxBackoffRetries = 60 ∧
    1 ≤ (Request env client method url opts (fuel + 1)).2.nBackoff := by
  have heff : effectiveMaxBackoffRetries client = DefaultMaxBackoffRetries := by
    simp [effectiveMaxBackoffRetries, h0]
  refine ⟨heff, rfl, ?_⟩
  unfold Request
  have hT : env.transport (initState opts).nTransport = .status 429 := hT0
  have hne : ¬ ((429 : Nat) = 401 ∧ client.hasReauthFunc = true
      ∧ (initState opts).hasReauthenticated = false) := fun hx => absurd hx.1 (by decide)
  have hlt : (initState opts).retries < effectiveMaxBackoffRetries client := by
    rw [heff]
    simp [initState, DefaultMaxBackoffRetries]
  cases hbb : env.backoff (initState opts).nBackoff with
  | none =>
      rw [doRequest_backoff_step env client method url opts fuel (initState opts) 429
        hc1 hc2 hT hok (Or.inl rfl) hne hbf hlt hbb]
      exact doRequest_nBackoff_mono env client method url opts fuel
        (bumpBackoff (sendOnce (initState opts)))
  | some e =>
      simp only [doRequest]
      rw [if_neg hc1, if_neg hc2]
      split
      · rename_i tag heqT
        rw [hT] at heqT
        simp at heqT
      · rename_i code heqC
        rw [hT] at heqC
        injection heqC with hcode
        subst hcode
        rw [if_neg hok]
        have hne2 : ¬ ((429 : Nat) = 401 ∧ client.hasReauthFunc = true
            ∧ (sendOnce (initState opts)).hasReauthenticated = false) := hne
        have hpos : ((429 : Nat) = 429 ∨ (429 : Nat) = 498) ∧ client.hasRetryBackoffFunc = true
            ∧ (sendOnce (initState opts)).retries < effectiveMaxBackoffRetries client :=
          ⟨Or.inl rfl, hbf, hlt⟩
        rw [if_neg hne2, if_pos hpos]
        have hbb2 : env.backoff (sendOnce (initState opts)).nBackoff = some e := hbb
        rw [hbb2]
        exact Nat.le_refl 1

/-- C9 witness: with an unset ceiling, a backoff hook and a 429 response,
the hook is invoked. -/
theorem zero_backoff_ceiling_impossible_witness :
    effectiveMaxBackoffRetries clientBackoff0 = DefaultMaxBackoffRetries ∧
    DefaultMaxBackoffRetries = 60 ∧
    1 ≤ (Request env429 clientBackoff0 "GET" "u" {} 1).2.nBackoff :=
  zero_backoff_ceiling_impossible env429 clientBackoff0 "GET" "u" {} 0
    rfl rfl rfl (by decide) (by decide) (by decide)

/-- Transport: first call 401, then 200; reauthentication succeeds. -/
def env401then200 : Env where
  transport := fun n => if n = 0 then .status 401 else .status 200
  reauth := fun _ => none
  backoff := fun _ => none
  retryFunc := fun _ => none
  jsonDecode := fun _ => none

/-- Transport: first call 429, then 200; backoff succeeds. -/
def env429then200 : Env where
  transport := fun n => if n = 0 then .status 429 else .status 200
  reauth := fun _ => none
  backoff := fun _ => none
  retryFunc := fun _ => none
  jsonDecode := fun _ => none

/-- Transport: first call 500, then 200; the generic retry hook allows the
retry. -/
def env500then200 : Env where
  transport := fun n => if n = 0 then .status 500 else .status 200
  reauth := fun _ => none
  backoff := fun _ => none
  retryFunc := fun _ => none
  jsonDecode := fun _ => none

/-- Transport: first call fails with a transport error, then 200; the
generic retry hook allows the retry. -/
def envTransportErrThen200 : Env where
  transport := fun n => if n = 0 then .transportErr 7 else .status 200
  reauth := fun _ => none
  backoff := fun _ => none
  retryFunc := fun _ => none
  jsonDecode := fun _ => none

/-- A client with only the generic RetryFunc configured. -/
def clientRetryOnly : ProviderClient where
  tokenID := ""
  authResult := none
  throwaway := false
  hasReauthFunc := false
  hasRetryBackoffFunc := false
  maxBackoffRetries := 0
  hasRetryFunc := true
  userAgentPrepend := []

/-- C5 amended: only the 401-reauthentication retry path rewinds the RawBody
stream, and only when the reader is seekable: (i) a seekable reader whose
Seek succeeds is rewound, so the retried request sends from position zero;
(ii) a failing Seek surfaces its error and the request is not re-sent;
(iii) a NON-seekable reader is retried anyway, with no error, from its
consumed position (the claimed fail-fast does not happen); (iv) the backoff
retry path performs no rewind at all, even for a seekable reader; (v) the
generic-retry (RetryFunc) path after an unexpected status performs no
rewind either; (vi) nor does the generic-retry path after a transport
error. -/
theorem retry_rewind_only_seekable_401 (s : RawStream) :
    (s.seekable = true → s.seekErr = none →
      (Request env401then200 clientReauth "GET" "u" { RawBody := some s } 3).1 = .ok 200 ∧
      (Request env401then200 clientReauth "GET" "u" { RawBody := some s } 3).2.sendLog =
        [some s.pos, some 0]) ∧
    (∀ e : GoError, s.seekable = true → s.seekErr = some e →
      (Request env401then200 clientReauth "GET" "u" { RawBody := some s } 3).1 = .err e ∧
      (Request env401then200 clientReauth "GET" "u" { RawBody := some s } 3).2.sendLog =
        [some s.pos]) ∧
    (s.seekable = false →
      (Request env401then200 clientReauth "GET" "u" { RawBody := some s } 3).1 = .ok 200 ∧
      (Request env401then200 clientReauth "GET" "u" { RawBody := some s } 3).2.sendLog =
        [some s.pos, some s.length]) ∧
    ((Request env429then200 clientBackoff0 "GET" "u" { RawBody := some s } 3).1 = .ok 200 ∧
      (Request env429then200 clientBackoff0 "GET" "u" { RawBody := some s } 3).2.sendLog =
        [some s.pos, some s.length]) ∧
    ((Request env500then200 clientRetryOnly "GET" "u" { RawBody := some s } 3).1 = .ok 200 ∧
      (Request env500then200 clientRetryOnly "GET" "u" { RawBody := some s } 3).2.sendLog =
        [some s.pos, some s.length]) ∧
    ((Request envTransportErrThen200 clientRetryOnly "GET" "u" { RawBody := some s } 3).1 =
        .ok 200 ∧
      (Request envTransportErrThen200 clientRetryOnly "GET" "u" { RawBody := some s } 3).2.sendLog =
        [some s.pos, some s.length]) := by
  have hc1 : ¬ (({ RawBody := some s } : RequestOpts).JSONBody.isSome = true
      ∧ ({ RawBody := some s } : RequestOpts).RawBody.isSome = true) := by simp
  have hc2 : ¬ (({ RawBody := some s } : RequestOpts).KeepResponseBody = true
      ∧ ({ RawBody := some s } : RequestOpts).hasJSONResponse = true) := by simp
  have hok401 : 401 ∉ ({ RawBody := some s } : RequestOpts).OkCodes.getD
      (defaultOkCodes "GET") := by show (401 : Nat) ∉ [200]; decide
  have hok429 : 429 ∉ ({ RawBody := some s } : RequestOpts).OkCodes.getD
      (defaultOkCodes "GET") := by show (429 : Nat) ∉ [200]; decide
  have hok200 : 200 ∈ ({ RawBody := some s } : RequestOpts).OkCodes.getD
      (defaultOkCodes "GET") := by show (200 : Nat) ∈ [200]; decide
  have hok500 : 500 ∉ ({ RawBody := some s } : RequestOpts).OkCodes.getD
      (defaultOkCodes "GET") := by show (500 : Nat) ∉ [200]; decide
  refine ⟨?_, ?_, ?_, ?_, ?_, ?_⟩
  · intro hs he
    have hskx : (seekCheck (bumpReauth (sendOnce
        (initState { RawBody := some s }))).rawBody).1 = none := by
      simp [bumpReauth, sendOnce, initState, seekCheck, hs, he]
    have hrun : Request env401then200 clientReauth "GET" "u" { RawBody := some s } 3 =
        (.ok 200, sendOnce (reauthNext (initState { RawBody := some s }))) := by
      unfold Request
      rw [doRequest_reauth_step env401then200 clientReauth "GET" "u" { RawBody := some s }
        2 (initState { RawBody := some s }) hc1 hc2 rfl hok401 rfl rfl rfl hskx]
      rw [doRequest_ok_step env401then200 clientReauth "GET" "u" { RawBody := some s }
        1 (reauthNext (initState { RawBody := some s })) 200 hc1 hc2 rfl hok200 rfl]
    rw [hrun]
    refine ⟨rfl, ?_⟩
    simp [sendOnce, reauthNext, markReauthed, bumpReauth, initState, seekCheck, hs, he]
  · intro e hs he
    have hskx : (seekCheck (bumpReauth (sendOnce
        (initState { RawBody := some s }))).rawBody).1 = some e := by
      simp [bumpReauth, sendOnce, initState, seekCheck, hs, he]
    have hrun : Request env401then200 clientReauth "GET" "u" { RawBody := some s } 3 =
        (.err e, bumpReauth (sendOnce (initState { RawBody := some s }))) := by
      unfold Request
      exact doRequest_reauth_seekfail_step env401then200 clientReauth "GET" "u"
        { RawBody := some s } 2 (initState { RawBody := some s }) e
        hc1 hc2 rfl hok401 rfl rfl rfl hskx
    rw [hrun]
    refine ⟨rfl, ?_⟩
    simp [bumpReauth, sendOnce, initState]
  · intro hs
    have hskx : (seekCheck (bumpReauth (sendOnce
        (initState { RawBody := some s }))).rawBody).1 = none := by
      simp [bumpReauth, sendOnce, initState, seekCheck, hs]
    have hrun : Request env401then200 clientReauth "GET" "u" { RawBody := some s } 3 =
        (.ok 200, sendOnce (reauthNext (initState { RawBody := some s }))) := by
      unfold Request
      rw [doRequest_reauth_step env401then200 clientReauth "GET" "u" { RawBody := some s }
        2 (initState { RawBody := some s }) hc1 hc2 rfl hok401 rfl rfl rfl hskx]
      rw [doRequest_ok_step env401then200 clientReauth "GET" "u" { RawBody := some s }
        1 (reauthNext (initState { RawBody := some s })) 200 hc1 hc2 rfl hok200 rfl]
    rw [hrun]
    refine ⟨rfl, ?_⟩
    simp [sendOnce, reauthNext, markReauthed, bumpReauth, initState, seekCheck, hs]
  · have hne : ¬ ((429 : Nat) = 401 ∧ clientBackoff0.hasReauthFunc = true
        ∧ (initState { RawBody := some s }).hasReauthenticated = false) :=
      fun hx => absurd hx.1 (by decide)
    have hlt : (initState { RawBody := some s }).retries <
        effectiveMaxBackoffRetries clientBackoff0 := by
      show (0 : Nat) < effectiveMaxBackoffRetries clientBackoff0; decide
    have hrun : Request env429then200 clientBackoff0 "GET" "u" { RawBody := some s } 3 =
        (.ok 200, sendOnce (bumpBackoff (sendOnce (initState { RawBody := some s })))) := by
      unfold Request
      rw [doRequest_backoff_step env429then200 clientBackoff0 "GET" "u" { RawBody := some s }
        2 (initState { RawBody := some s }) 429 hc1 hc2 rfl hok429 (Or.inl rfl) hne rfl hlt rfl]
      rw [doRequest_ok_step env429then200 clientBackoff0 "GET" "u" { RawBody := some s }
        1 (bumpBackoff (sendOnce (initState { RawBody := some s }))) 200 hc1 hc2 rfl hok200 rfl]
    rw [hrun]
    refine ⟨rfl, ?_⟩
    simp [sendOnce, bumpBackoff, initState]
  · have h401x : ¬ ((500 : Nat) = 401 ∧ clientRetryOnly.hasReauthFunc = true
        ∧ (initState { RawBody := some s }).hasReauthenticated = false) :=
      fun hx => absurd hx.1 (by decide)
    have h429x : ¬ (((500 : Nat) = 429 ∨ (500 : Nat) = 498)
        ∧ clientRetryOnly.hasRetryBackoffFunc = true
        ∧ (initState { RawBody := some s }).retries <
            effectiveMaxBackoffRetries clientRetryOnly) :=
      fun hx => absurd hx.2.1 (by decide)
    have hrun : Request env500then200 clientRetryOnly "GET" "u" { RawBody := some s } 3 =
        (.ok 200, sendOnce (bumpRetryFunc (sendOnce (initState { RawBody := some s })))) := by
      unfold Request
      rw [doRequest_retryfunc_step env500then200 clientRetryOnly "GET" "u"
        { RawBody := some s } 2 (initState { RawBody := some s }) 500
        hc1 hc2 rfl hok500 h401x h429x rfl rfl]
      rw [doRequest_ok_step env500then200 clientRetryOnly "GET" "u" { RawBody := some s }
        1 (bumpRetryFunc (sendOnce (initState { RawBody := some s }))) 200 hc1 hc2 rfl hok200 rfl]
    rw [hrun]
    refine ⟨rfl, ?_⟩
    simp [sendOnce, bumpRetryFunc, initState]
  · have hrun : Request envTransportErrThen200 clientRetryOnly "GET" "u"
        { RawBody := some s } 3 =
        (.ok 200, sendOnce (bumpRetryFunc (sendOnce (initState { RawBody := some s })))) := by
      unfold Request
      rw [doRequest_transporterr_retry_step envTransportErrThen200 clientRetryOnly "GET" "u"
        { RawBody := some s } 2 (initState { RawBody := some s }) 7 hc1 hc2 rfl rfl rfl]
      rw [doRequest_ok_step envTransportErrThen200 clientRetryOnly "GET" "u"
        { RawBody := some s } 1 (bumpRetryFunc (sendOnce (initState { RawBody := some s })))
        200 hc1 hc2 rfl hok200 rfl]
    rw [hrun]
    refine ⟨rfl, ?_⟩
    simp [sendOnce, bumpRetryFunc, initState]

/-- C5 counterexample: a non-rewindable (non-seekable) RawBody retried after
a 401 does NOT fail fast with an explicit error: the retry succeeds, and the
second send happens from the consumed position 5 rather than position 0, so
the retried request is not byte-identical either. -/
theorem nonseekable_retry_no_error_cex :
    (Request env401then200 clientReauth "GET" "u"
      { RawBody := some { length := 5, pos := 0, seekable := false, seekErr := none } } 3).1 =
        .ok 200 ∧
    (Request env401then200 clientReauth "GET" "u"
      { RawBody := some { length := 5, pos := 0, seekable := false, seekErr := none } } 3).2.sendLog =
        [some 0, some 5] := by
  decide

end Gophercloud
